import Mathlib

/-!
Verification of the thunder-alley-league core (qualifying, grid construction,
race scoring, standings aggregation) against its specification.

The Python source is shallowly embedded: each pandas/python function that the
claims mention is translated into an executable Lean definition over explicit
record lists.  Machine floats appear only in the qualifying-weight computation,
where every value manipulated by the relevant claims is exactly representable;
that part is modelled over `ℚ`.  Python's dynamically typed cells (a `finish`
column holding either an `int` or the string `"DNQ"`) are modelled by `PyVal`.
Fallible Python code (KeyError lookups, TypeError calls, ValueError on empty
argmax) is modelled with `Except String`.
-/

namespace TAL

/-! ### Python dynamic values

`PyVal` models a pandas object-dtype cell: either a Python `int` or a `str`.
`pyEq` is Python `==` (an `int` never equals a `str`); `toNumeric` is
`pd.to_numeric(·, errors="coerce")` restricted to the values this program
stores (integers, integer strings, and `"DNQ"`, which coerces to NaN, i.e.
`none`). -/

inductive PyVal where
  | int (n : Int)
  | str (s : String)
deriving DecidableEq, Repr, Inhabited

def PyVal.pyEq : PyVal → PyVal → Bool
  | .int a, .int b => a == b
  | .str a, .str b => a == b
  | _, _ => false

/-- Decimal parsing of a digit run, accumulator style; `none` as soon as a
non-digit appears. -/
def natOfDigits : List Char → Nat → Option Nat
  | [], acc => some acc
  | c :: rest, acc =>
    if c.isDigit then natOfDigits rest (acc * 10 + (c.toNat - 48)) else none

/-- Integer parsing of a string (the numeric coercion applied to a string
cell), written over the character data so that it is kernel-executable; every
string this program stores in a numeric-coerced column is either a decimal
integer literal or `"DNQ"` (which fails to parse, i.e. coerces to NaN). -/
def strToInt : String → Option Int := fun s =>
  match s.data with
  | [] => none
  | '-' :: c :: rest => (natOfDigits (c :: rest) 0).map (fun n => -(n : Int))
  | cs => (natOfDigits cs 0).map (fun n => (n : Int))

def PyVal.toNumeric : PyVal → Option Int
  | .int n => some n
  | .str s => strToInt s

/-- Embedding of `pd.to_numeric(finish, errors="coerce") <= bound` as used by the
`top5s`/`top10s` aggregations: NaN (`none`) compares false. -/
def finishAtMost (bound : Int) (v : PyVal) : Bool :=
  match v.toNumeric with
  | some n => decide (n ≤ bound)
  | none => false

/-! ### Data model records -/

/-- One raw finish entry (`RawFinishInput`): `{"carNumber": ..., "finish": int
or "DNQ", "turnsLed": ...}`.  The Python dicts always carry `turnsLed`
(`result.get("turnsLed", 0)` only defaults a missing key). -/
inductive RaceFinish where
  | pos (n : Int)
  | dnq
deriving DecidableEq, Repr

structure RawResult where
  carNumber : Int
  finish : RaceFinish
  turnsLed : Int
deriving DecidableEq, Repr

/-- A starting-grid row as produced by `qualifying.starting_grid`. -/
structure GridRow where
  carNumber : Int
  driver : String
  team : String
  startingPosition : Int
deriving DecidableEq, Repr

/-- A scored result row (`ScoredResult`).  `finish` and `startingPos` are
dynamically typed in the source (`int` for finishers, the string `"DNQ"`
otherwise), hence `PyVal`.  The season DataFrame rows flattened by
`races_to_season_df` carry the same fields plus `date`/`raceNum`/`trackId`
passthrough columns that no claim or standings aggregation reads; those three
are omitted from the embedding. -/
structure ScoredRow where
  finish : PyVal
  carNumber : Int
  driver : String
  team : String
  startingPos : PyVal
  turnsLed : Int
  points : Int
  playoffPoints : Int
  relativeFinish : Int
  qualifyingPoints : Int
deriving DecidableEq, Repr, Inhabited

/-- One lookup table of the points configuration: a JSON dict keyed by the
finish position as a string or by the literal key `"DNQ"`, read through
`.get(key, 0)`.  Integer keys and `"DNQ"` are disjoint, so the table splits
into a total function on positions plus the `"DNQ"` entry. -/
structure PointsTable where
  byPos : Int → Int
  dnq : Int

/-- The three lookup tables of `points_structure.json`. -/
structure PointsStructure where
  points : PointsTable
  playoffPoints : PointsTable
  qualifyingPoints : PointsTable

/-! ### Generic list machinery shared by the embeddings

pandas `groupby(..., sort=False)` lists group keys in order of first
appearance: `dedupFirst`.  All `kind="mergesort"` sorts are stable; a stable
sort's output is uniquely determined by the comparator and the input order, so
they are embedded as a structurally recursive insertion sort (`isort`), which
is stable and kernel-executable. -/

def dedupFirst {α : Type} [DecidableEq α] : List α → List α
  | [] => []
  | x :: xs => x :: (dedupFirst xs).filter (fun y => y ≠ x)

def insertLe {α : Type} (le : α → α → Bool) (x : α) : List α → List α
  | [] => [x]
  | y :: ys => if le x y then x :: y :: ys else y :: insertLe le x ys

def isort {α : Type} (le : α → α → Bool) : List α → List α
  | [] => []
  | x :: xs => insertLe le x (isort le xs)

/-- Lexicographic `≥` on equal-length integer key lists; this is the "keep `a`
no later than `b`" comparator of a pandas multi-key sort with
`ascending=False` on every key. -/
def lexGe : List Int → List Int → Bool
  | [], _ => true
  | _ :: _, [] => true
  | a :: as, b :: bs => if a = b then lexGe as bs else decide (b < a)

/-- Python string `<` (lexicographic on code points), evaluated on the
character data so that it is kernel-executable. -/
def charListLt : List Char → List Char → Bool
  | [], [] => false
  | [], _ :: _ => true
  | _ :: _, [] => false
  | a :: as, b :: bs => if a = b then charListLt as bs else decide (a < b)

def strLe (a b : String) : Bool := a == b || charListLt a.data b.data

/-- Maximum of an integer column (`Series.max`); only used on nonempty
columns (pandas would return NaN on an empty one). -/
def intListMax : List Int → Int
  | [] => 0
  | x :: xs => xs.foldl max x

/-! ### scoring.py -/

/-- Embedding of `scoring.calc_qualifying_points`: configured qualifying points for the
finish position plus a flat `+4` when starting from pole. -/
def calc_qualifying_points (finish starting_pos : Int) (ps : PointsStructure) : Int :=
  ps.qualifyingPoints.byPos finish + (if starting_pos == 1 then 4 else 0)

/-- Embedding of `scoring._build_dnq_result`: the scored row for a DNQ entry. -/
def build_dnq_result (car : Int) (row : GridRow) (pts_def po_def qual_def : PointsTable) :
    ScoredRow :=
  { finish := .str "DNQ"
    carNumber := car
    driver := row.driver
    team := row.team
    startingPos := .str "DNQ"
    turnsLed := 0
    points := pts_def.dnq
    playoffPoints := po_def.dnq
    relativeFinish := 0
    qualifyingPoints := qual_def.dnq }

/-- Per-team accumulator of `scoring._calculate_team_stats`: the two dicts
`team_finishes` and `team_turns_led` are built side by side with identical
insertion order, so they are embedded as one insertion-ordered association
list. -/
structure TeamStat where
  finishes : List Int
  turnsLed : Int
deriving DecidableEq, Repr

/-- Dict update step: initialise the team on first sight, then append the
finish and add the turns led. -/
def updateStat : List (String × TeamStat) → String → Int → Int → List (String × TeamStat)
  | [], t, f, tl => [(t, ⟨[f], tl⟩)]
  | (k, s) :: rest, t, f, tl =>
    if k = t then (k, ⟨s.finishes ++ [f], s.turnsLed + tl⟩) :: rest
    else (k, s) :: updateStat rest t f tl

/-- The result loop of `_calculate_team_stats`: DNQ entries are skipped
entirely (no grid lookup, no accumulation); a finisher whose car is missing
from the grid index raises `KeyError`. -/
def statsFold (grid_idx : Int → Option GridRow) (acc : List (String × TeamStat)) :
    List RawResult → Except String (List (String × TeamStat))
  | [] => .ok acc
  | r :: rest =>
    match r.finish with
    | .dnq => statsFold grid_idx acc rest
    | .pos f =>
      match grid_idx r.carNumber with
      | none => .error "KeyError"
      | some row => statsFold grid_idx (updateStat acc row.team f r.turnsLed) rest

/-- Embedding of `max(team_turns_led, key=...)` over an insertion-ordered dict: the first
key attaining the maximum value; `None` when the dict is empty. -/
def maxTurnsKey (l : List (String × TeamStat)) : Option String :=
  (l.foldl
    (fun best p =>
      match best with
      | none => some (p.1, p.2.turnsLed)
      | some b => if p.2.turnsLed > b.2 then some (p.1, p.2.turnsLed) else some b)
    none).map (fun b => b.1)

/-- Embedding of `scoring._calculate_team_stats`: per-team sorted finish lists plus the
team with the most turns led (first team in dict insertion order on ties). -/
def calculate_team_stats (results : List RawResult) (grid_idx : Int → Option GridRow) :
    Except String (List (String × TeamStat) × Option String) := do
  let acc ← statsFold grid_idx [] results
  let sortedAcc := acc.map (fun p => (p.1, TeamStat.mk (isort (fun a b => decide (a ≤ b)) p.2.finishes) p.2.turnsLed))
  .ok (sortedAcc, maxTurnsKey sortedAcc)

/-- The per-result loop of `scoring.build_race_results`.  The DNQ branch
appends `_build_dnq_result`.  The finisher branch of the source calls
`_build_finisher_result(result, row, team, pts_def, po_def, points_structure,
team_finishes, team_with_most_led)` — eight positional arguments — but
`_build_finisher_result` is declared with only seven parameters, so the call
itself raises `TypeError` as soon as the first non-DNQ entry is processed. -/
def buildRowsLoop (grid_idx : Int → Option GridRow) (pts_def po_def qual_def : PointsTable) :
    List RawResult → Except String (List ScoredRow)
  | [] => .ok []
  | r :: rest =>
    match grid_idx r.carNumber with
    | none => .error "KeyError"
    | some row =>
      match r.finish with
      | .dnq => do
        let tail ← buildRowsLoop grid_idx pts_def po_def qual_def rest
        .ok (build_dnq_result r.carNumber row pts_def po_def qual_def :: tail)
      | .pos _ =>
        .error "TypeError: _build_finisher_result() takes 7 positional arguments but 8 were given"

/-- Embedding of `scoring.build_race_results`: index the grid by car number, compute team
stats, then build one scored row per input entry. -/
def build_race_results (results : List RawResult) (grid : List GridRow)
    (ps : PointsStructure) : Except String (List ScoredRow) := do
  let grid_idx := fun car => grid.find? (fun g => g.carNumber == car)
  let _stats ← calculate_team_stats results grid_idx
  buildRowsLoop grid_idx ps.points ps.playoffPoints ps.qualifyingPoints results

/-! ### qualifying.py — weighted qualifying -/

/-- A qualifier row output by `qualifying_sequence` (carNumber, driver, team,
teamPosition). -/
structure QualRow where
  carNumber : Int
  driver : String
  team : String
  teamPosition : Int
deriving DecidableEq, Repr

/-- The `.fillna(eps).clip(lower=eps, upper=1.0)` step of
`qualifying_sequence` (lines 45-49).  Over `ℚ` no NaN arises, so only the
clip remains: the weight is forced into `[1e-6, 1]`. -/
def clipWeight (w : ℚ) : ℚ := max (1 / 1000000) (min w 1)

/-- One car's sampling weight (`qualifying_sequence` lines 37-49): its share
`score/teamPoints` of the team total, or the equal split `1/teamSize` when the
team total is zero, clamped to `[1e-6, 1]`. -/
def weight_of (teamPoints : ℚ) (teamSize : Nat) (score : ℚ) : ℚ :=
  clipWeight (if teamPoints = 0 then 1 / (teamSize : ℚ) else score / teamPoints)

/-- The weight column restricted to one team, as a function of that team's
aggregated qualifying scores (the groupby `transform("sum")` /
`transform("count")` broadcast the team total and team size to each row). -/
def team_weights (scores : List ℚ) : List ℚ :=
  scores.map (weight_of scores.sum scores.length)

/-! ### qualifying.py — starting grid -/

/-- A `(car number, driver name)` pick for one grid slot of a team. -/
structure CarPick where
  num : Int
  name : String
deriving DecidableEq, Repr

/-- Embedding of `starting_grid` lines 80-89.  The source reads

    if num_teams == 2:
        cars_per_team = 6
    if num_teams == 3:
        cars_per_team = 5
    elif num_teams == 4:
        cars_per_team = 4
    else:
        cars_per_team = 3

The second chain is `if`/`elif`/`else` and therefore always assigns; the
first `if num_teams == 2: cars_per_team = 6` is a dead store that the `else`
branch overwrites with 3.  The embedding is the net effect. -/
def cars_per_team (num_teams : Nat) : Nat :=
  if num_teams == 3 then 5 else if num_teams == 4 then 4 else 3

/-- The grid-assembly picks, in emission order: `for rank in
range(cars_per_team): for team in pole_teams: if rank <
len(team_selections[team]): append`.  `sel t` is `team_selections[t]`. -/
def gridPicks (cpt : Nat) (teams : List String) (sel : String → List CarPick) :
    List (String × CarPick) :=
  (List.range cpt).flatMap
    (fun r => teams.filterMap (fun t => ((sel t)[r]?).map (fun c => (t, c))))

/-- Grid assembly (`starting_grid` lines 114-131 and, identically, lines
180-197): the picks receive consecutive `startingPosition` values starting
from `pos = 1`, one increment per appended row. -/
def grid_rows (cpt : Nat) (teams : List String) (sel : String → List CarPick) :
    List GridRow :=
  let picks := gridPicks cpt teams sel
  (picks.zip (List.range' 1 picks.length)).map
    (fun p => { carNumber := p.1.2.num, driver := p.1.2.name, team := p.1.1,
                startingPosition := Int.ofNat p.2 })

/-- Cold-start `starting_grid` (empty qualifiers, lines 94-131).  `teams` is
`pole_teams` (the participating teams already in pole order, as computed on
lines 96-100) and `sample t` stands for the uniformly random
`random.sample(team_cars, min(cars_per_team, len(team_cars)))` drawn for team
`t`; the randomness is passed in as a parameter. -/
def starting_grid_cold (teams : List String) (sample : String → List CarPick) :
    List GridRow :=
  grid_rows (cars_per_team teams.length) teams sample

/-- The warm-start selection list for one team (`starting_grid` lines
141-178): the team's qualifiers sorted by `teamPosition`, followed by the
random fill picks.  `fill t` stands for the `random.sample(available_cars,
min(slots_needed, len(available_cars)))` result (empty when `slots_needed <=
0`); the randomness is passed in as a parameter. -/
def warm_selection (qualifiers : List QualRow) (fill : String → List CarPick)
    (t : String) : List CarPick :=
  (isort (fun a b => decide (a.teamPosition ≤ b.teamPosition))
      (qualifiers.filter (fun q => q.team == t))).map (fun q => ⟨q.carNumber, q.driver⟩)
    ++ fill t

/-- Warm-start `starting_grid` (non-empty qualifiers, lines 133-197). -/
def starting_grid_warm (teams : List String) (qualifiers : List QualRow)
    (fill : String → List CarPick) : List GridRow :=
  grid_rows (cars_per_team teams.length) teams (warm_selection qualifiers fill)

/-! ### standings.py — aggregation views -/

/-- Count of `np.sum(s != "DNQ")` (`starts`): a cell fails to equal the
string `"DNQ"` also when it is an `int`. -/
def notDnq (v : PyVal) : Bool := !(v.pyEq (.str "DNQ"))

/-- Count predicate of `np.sum(s == "1")` (`wins`): Python `==` against the
string `"1"`, which an integer cell never satisfies. -/
def winsPred (v : PyVal) : Bool := v.pyEq (.str "1")

structure DriverAgg where
  carNumber : Int
  driver : String
  team : String
  points : Int
  starts : Nat
  wins : Nat
  top5s : Nat
  top10s : Nat
  turnsLed : Int
  playoffPoints : Int
deriving DecidableEq, Repr, Inhabited

/-- Embedding of the `driver_standings` groupby block (lines 9-24): group by
(carNumber, driver, team) with `sort=False` (keys in order of first
appearance) and aggregate the seven metrics. -/
def driver_agg_rows (rows : List ScoredRow) : List DriverAgg :=
  (dedupFirst (rows.map (fun r => (r.carNumber, r.driver, r.team)))).map (fun k =>
    let g := rows.filter (fun r => (r.carNumber, r.driver, r.team) == k)
    { carNumber := k.1
      driver := k.2.1
      team := k.2.2
      points := (g.map (fun r => r.points)).sum
      starts := g.countP (fun r => notDnq r.finish)
      wins := g.countP (fun r => winsPred r.finish)
      top5s := g.countP (fun r => finishAtMost 5 r.finish)
      top10s := g.countP (fun r => finishAtMost 10 r.finish)
      turnsLed := (g.map (fun r => r.turnsLed)).sum
      playoffPoints := (g.map (fun r => r.playoffPoints)).sum })

/-- Comparator of the `driver_standings` sort (lines 43-47): five keys, all
descending, `kind="mergesort"` (stable). -/
def driverLe (a b : DriverAgg) : Bool :=
  lexGe [a.points, a.wins, a.top5s, a.top10s, a.turnsLed]
        [b.points, b.wins, b.top5s, b.top10s, b.turnsLed]

structure DriverRow extends DriverAgg where
  position : Nat
  behind : Int
deriving DecidableEq, Repr

/-- Embedding of `standings.driver_standings`: aggregate, compute `behind` against the
season maximum, stable-sort descending, and assign dense positions 1..N. -/
def driver_standings (rows : List ScoredRow) : List DriverRow :=
  let agg := driver_agg_rows rows
  let maxPts := intListMax (agg.map (fun a => a.points))
  let sortedAgg := isort driverLe agg
  (sortedAgg.zip (List.range' 1 sortedAgg.length)).map
    (fun p => { toDriverAgg := p.1, position := p.2, behind := maxPts - p.1.points })

structure OwnerAgg where
  team : String
  points : Int
  wins : Nat
  top5s : Nat
  top10s : Nat
deriving DecidableEq, Repr, Inhabited

/-- Embedding of the `owner_standings` groupby block (lines 56-68): group by team with
`sort=False`. -/
def owner_agg_rows (rows : List ScoredRow) : List OwnerAgg :=
  (dedupFirst (rows.map (fun r => r.team))).map (fun t =>
    let g := rows.filter (fun r => r.team == t)
    { team := t
      points := (g.map (fun r => r.points)).sum
      wins := g.countP (fun r => winsPred r.finish)
      top5s := g.countP (fun r => finishAtMost 5 r.finish)
      top10s := g.countP (fun r => finishAtMost 10 r.finish) })

/-- Comparator of the `owner_standings` sort (lines 72-76): four keys, all
descending, `kind="mergesort"`. -/
def ownerLe (a b : OwnerAgg) : Bool :=
  lexGe [a.points, a.wins, a.top5s, a.top10s] [b.points, b.wins, b.top5s, b.top10s]

structure OwnerRow extends OwnerAgg where
  position : Nat
  owner : Option String
  behind : Int
deriving DecidableEq, Repr

/-- Embedding of `standings.owner_standings`: aggregate by team, compute `behind`,
stable-sort descending, assign positions, and map teams to owners
(`team_owners` is the config dict; a missing team maps to `none`/NaN). -/
def owner_standings (rows : List ScoredRow) (team_owners : String → Option String) :
    List OwnerRow :=
  let agg := owner_agg_rows rows
  let maxPts := intListMax (agg.map (fun a => a.points))
  let sortedAgg := isort ownerLe agg
  (sortedAgg.zip (List.range' 1 sortedAgg.length)).map
    (fun p => { toOwnerAgg := p.1, position := p.2, owner := team_owners p.1.team,
                behind := maxPts - p.1.points })

structure PlayoffAgg where
  carNumber : Int
  driver : String
  team : String
  playoffPoints : Int
  wins : Nat
  top5s : Nat
  top10s : Nat
  turnsLed : Int
deriving DecidableEq, Repr, Inhabited

/-- Embedding of the `playoff_standings` groupby block (lines 89-102): group by
(carNumber, driver, team) with `sort=False`. -/
def playoff_agg_rows (rows : List ScoredRow) : List PlayoffAgg :=
  (dedupFirst (rows.map (fun r => (r.carNumber, r.driver, r.team)))).map (fun k =>
    let g := rows.filter (fun r => (r.carNumber, r.driver, r.team) == k)
    { carNumber := k.1
      driver := k.2.1
      team := k.2.2
      playoffPoints := (g.map (fun r => r.playoffPoints)).sum
      wins := g.countP (fun r => winsPred r.finish)
      top5s := g.countP (fun r => finishAtMost 5 r.finish)
      top10s := g.countP (fun r => finishAtMost 10 r.finish)
      turnsLed := (g.map (fun r => r.turnsLed)).sum })

/-- Comparator of the `playoff_standings` sort (lines 104-108): five keys,
all descending, `kind="mergesort"`. -/
def playoffLe (a b : PlayoffAgg) : Bool :=
  lexGe [a.playoffPoints, a.wins, a.top5s, a.top10s, a.turnsLed]
        [b.playoffPoints, b.wins, b.top5s, b.top10s, b.turnsLed]

structure PlayoffRow extends PlayoffAgg where
  position : Nat
  margin : String
deriving DecidableEq, Repr, Inhabited

/-- Python's `f"{int(delta):+d}"`: decimal with an explicit sign (`+` is
printed for every non-negative value, `-` is part of the decimal form of a
negative value). -/
def fmtSigned (d : Int) : String := if 0 ≤ d then "+" ++ toString d else toString d

/-- Embedding of `standings.playoff_standings` (lines 87-131): aggregate, stable-sort by
five descending keys, assign positions 1..N, then attach the cutline margin:
blank for every row when fewer than 13 rows exist; otherwise rows with
`position <= 12` show their gap to row 13's `playoffPoints` and the remaining
rows their gap to row 12's, formatted with an explicit sign; finally
`head(24)`.  (The `pd.isna` guard of `_pm` never fires: the aggregated
`playoffPoints` are integer sums.) -/
def playoff_standings (rows : List ScoredRow) : List PlayoffRow :=
  let sortedAgg := isort playoffLe (playoff_agg_rows rows)
  let positioned := sortedAgg.zip (List.range' 1 sortedAgg.length)
  let out :=
    if sortedAgg.length < 13 then
      positioned.map (fun p => { toPlayoffAgg := p.1, position := p.2, margin := "" })
    else
      let pts12 := ((sortedAgg[11]?).getD default).playoffPoints
      let pts13 := ((sortedAgg[12]?).getD default).playoffPoints
      positioned.map (fun p =>
        let delta := if p.2 ≤ 12 then p.1.playoffPoints - pts13 else p.1.playoffPoints - pts12
        { toPlayoffAgg := p.1, position := p.2, margin := fmtSigned delta })
  out.take 24

/-! ### standings.py — per-race team results -/

/-- One aggregated team row of `team_race_results` before the bonus and
ranking steps.  `avgFinish` (a float mean of the numeric finishes rounded to
two decimals) is read by no claim and is left out of the embedding. -/
structure TeamRec where
  team : String
  totalPoints : Int
  turnsLed : Int
  drivers : Nat
deriving DecidableEq, Repr, Inhabited

/-- Embedding of the `team_race_results` groupby block (lines 140-148): `groupby("team")`
without `sort=False` sorts the group keys, so the rows come out in ascending
team-name order, one per distinct team. -/
def team_base_records (race : List ScoredRow) : List TeamRec :=
  (isort strLe (dedupFirst (race.map (fun r => r.team)))).map (fun t =>
    let g := race.filter (fun r => r.team == t)
    { team := t
      totalPoints := (g.map (fun r => r.points)).sum
      turnsLed := (g.map (fun r => r.turnsLed)).sum
      drivers := g.length })

/-- Embedding of `team_results["turnsLed"].idxmax()` (line 151): the first row attaining
the maximum `turnsLed`, also when that maximum is 0; `none` only for an empty
frame (where pandas raises `ValueError`). -/
def argmaxTurnsLed : List TeamRec → Option TeamRec
  | [] => none
  | [r] => some r
  | r :: s :: rest =>
    match argmaxTurnsLed (s :: rest) with
    | none => some r
    | some b => if b.turnsLed > r.turnsLed then some b else some r

/-- The bonus mask of line 152: `+1` on every row whose team equals the
most-led team (exactly one row, the team keys being distinct). -/
def bonusRow (mostLed : String) (r : TeamRec) : TeamRec :=
  if r.team == mostLed then { r with totalPoints := r.totalPoints + 1 } else r

/-- Embedding of `standings.team_race_results`, through the turns-led bonus step (lines
136-152): aggregate per team and add `+1` to the `idxmax` team's
`totalPoints`.  The final ranking step (line 159) re-sorts these records by
`totalPoints` descending with pandas' default sort and assigns positions; that
sort is not `kind="mergesort"` — see the sort-kind table below. -/
def team_race_records (race : List ScoredRow) : Except String (List TeamRec) :=
  let base := team_base_records race
  match argmaxTurnsLed base with
  | none => .error "ValueError: attempt to get argmax of an empty sequence"
  | some m => .ok (base.map (bonusRow m.team))

/-! ### Sort kinds of the core ranking steps

pandas guarantees stability only for `kind="mergesort"`; the default kind is
`quicksort` (numpy introsort), which is documented as not stable.  Each
constant below records the `kind` argument of one ranking `sort_values` call
in `standings.py`. -/

inductive PandasSortKind where
  | mergesort
  | quicksort
deriving DecidableEq, Repr

/-- Whether pandas guarantees the sort kind to be stable. -/
def PandasSortKind.stableGuaranteed : PandasSortKind → Bool
  | .mergesort => true
  | .quicksort => false

/-- Sort kind of `driver_standings`, lines 43-47: `kind="mergesort"`. -/
def driver_standings_sort_kind : PandasSortKind := .mergesort

/-- Sort kind of `owner_standings`, lines 72-76: `kind="mergesort"`. -/
def owner_standings_sort_kind : PandasSortKind := .mergesort

/-- Sort kind of `playoff_standings`, lines 104-108: `kind="mergesort"`. -/
def playoff_standings_sort_kind : PandasSortKind := .mergesort

/-- Sort kind of `team_race_results`, lines 159-161: `sort_values("totalPoints",
ascending=False)` with no `kind` argument, i.e. the default `quicksort`. -/
def team_race_results_sort_kind : PandasSortKind := .quicksort

/-- The ranking/aggregation sort steps of the core, in the order driver
standings, owner standings, playoff standings, per-race team ranking. -/
def core_ranking_sort_kinds : List PandasSortKind :=
  [driver_standings_sort_kind, owner_standings_sort_kind,
   playoff_standings_sort_kind, team_race_results_sort_kind]

/-! ### Concrete inputs used by the closed theorems and witnesses -/

/-- A points table mapping every key to 0 (an empty JSON dict under
`.get(key, 0)`). -/
def zeroTable : PointsTable := ⟨fun _ => 0, 0⟩

/-- A points structure of three empty tables. -/
def zeroPoints : PointsStructure := ⟨zeroTable, zeroTable, zeroTable⟩

/-- A one-car grid. -/
def c1Grid : List GridRow := [⟨1, "Alice", "Apex", 1⟩]

/-- The cold-start random sample for a 2-team race: for each team,
`random.sample` draws `min(cars_per_team, 6) = min(3, 6) = 3` of its 6
rostered cars; this is one possible draw. -/
def c2Sample : String → List CarPick := fun t =>
  if t == "A" then [⟨1, "a1"⟩, ⟨2, "a2"⟩, ⟨3, "a3"⟩]
  else [⟨4, "b1"⟩, ⟨5, "b2"⟩, ⟨6, "b3"⟩]

/-- A scored race in which every car led zero turns; the rows arrive with
team "B" first, team "A" second. -/
def c3Race : List ScoredRow :=
  [{ finish := .int 1, carNumber := 2, driver := "bob", team := "B",
     startingPos := .int 1, turnsLed := 0, points := 10, playoffPoints := 4,
     relativeFinish := 1, qualifyingPoints := 0 },
   { finish := .int 2, carNumber := 1, driver := "ann", team := "A",
     startingPos := .int 2, turnsLed := 0, points := 5, playoffPoints := 3,
     relativeFinish := 1, qualifyingPoints := 0 }]

/-- A season consisting of one race win (`finish` stored as the integer 1,
exactly as `build_race_results` and `races_to_season_df` store it) and one
DNQ row for the same car. -/
def c5Season : List ScoredRow :=
  [{ finish := .int 1, carNumber := 7, driver := "dana", team := "T",
     startingPos := .int 1, turnsLed := 3, points := 43, playoffPoints := 5,
     relativeFinish := 1, qualifyingPoints := 10 },
   { finish := .str "DNQ", carNumber := 7, driver := "dana", team := "T",
     startingPos := .str "DNQ", turnsLed := 0, points := 0, playoffPoints := 0,
     relativeFinish := 0, qualifyingPoints := 0 }]

/-- A one-row season used to instantiate the playoff-margin theorem. -/
def c6Rows : List ScoredRow :=
  [{ finish := .int 1, carNumber := 9, driver := "eve", team := "U",
     startingPos := .int 1, turnsLed := 0, points := 40, playoffPoints := 5,
     relativeFinish := 1, qualifyingPoints := 0 }]

/-- A single qualifier for team "A" used to instantiate the warm-start
theorem. -/
def c10Quals : List QualRow := [⟨1, "ann", "A", 1⟩]

/-- A random-fill function contributing no cars. -/
def c10Fill : String → List CarPick := fun _ => []

/-! ### Conclusion predicates of the hypothesis-bearing claim theorems -/

/-- Conclusion of the turns-led-bonus theorem for a race `race`: the
aggregation has a first-maximum row `m`, exactly one aggregated row carries
`m`'s team, and `team_race_results` adds the `+1` bonus to exactly the rows
of that team (hence exactly once) — whether or not any turns were led; `m` is
the first row in the sorted team order whose `turnsLed` is maximal. -/
def C3Concl (race : List ScoredRow) : Prop :=
  ∃ m, argmaxTurnsLed (team_base_records race) = some m ∧
    (team_base_records race).countP (fun r => r.team == m.team) = 1 ∧
    team_race_records race = .ok ((team_base_records race).map (bonusRow m.team)) ∧
    (∀ r ∈ team_base_records race, r.turnsLed ≤ m.turnsLed) ∧
    ∃ i, ∃ hi : i < (team_base_records race).length,
      (team_base_records race).get ⟨i, hi⟩ = m ∧
      ∀ j (hj : j < (team_base_records race).length), j < i →
        ((team_base_records race).get ⟨j, hj⟩).turnsLed < m.turnsLed

/-- Conclusion of the playoff-margin theorem for row `i` of
`playoff_standings rows`: at most 24 rows are returned; the row's `position`
is `i + 1`; with fewer than 13 aggregated rows its margin is blank; with 13
or more, rows in positions 1-12 show their non-negative gap to row 13's
`playoffPoints` with an explicit leading `+`, and later rows show their
non-positive gap to row 12's; non-negative margins always render with an
explicit sign. -/
def C6Concl (rows : List ScoredRow) (i : Nat) : Prop :=
  (playoff_standings rows).length ≤ 24 ∧
  (∀ d : Int, 0 ≤ d → fmtSigned d = "+" ++ toString d) ∧
  ((playoff_standings rows)[i]?.getD default).position = i + 1 ∧
  ((isort playoffLe (playoff_agg_rows rows)).length < 13 →
    ((playoff_standings rows)[i]?.getD default).margin = "") ∧
  (13 ≤ (isort playoffLe (playoff_agg_rows rows)).length →
    (i ≤ 11 →
      0 ≤ ((playoff_standings rows)[i]?.getD default).playoffPoints
          - (((isort playoffLe (playoff_agg_rows rows))[12]?.getD default).playoffPoints) ∧
      ((playoff_standings rows)[i]?.getD default).margin
        = "+" ++ toString (((playoff_standings rows)[i]?.getD default).playoffPoints
            - (((isort playoffLe (playoff_agg_rows rows))[12]?.getD default).playoffPoints))) ∧
    (12 ≤ i →
      ((playoff_standings rows)[i]?.getD default).playoffPoints
          - (((isort playoffLe (playoff_agg_rows rows))[11]?.getD default).playoffPoints) ≤ 0 ∧
      ((playoff_standings rows)[i]?.getD default).margin
        = fmtSigned (((playoff_standings rows)[i]?.getD default).playoffPoints
            - (((isort playoffLe (playoff_agg_rows rows))[11]?.getD default).playoffPoints))))

/-- Conclusion of the warm-start grid theorem for team `t`: the team fills at
most `cars_per_team` grid rows; read top to bottom, its grid cars are exactly
the first `cars_per_team` entries of its selection list (qualifiers in
`teamPosition` order, then the random fills); and when the selection carries
no duplicate car numbers, every selection entry at index `cars_per_team` or
beyond — in particular a qualifier ranked past `cars_per_team` — is absent
from the team's grid rows. -/
def C10Concl (teams : List String) (qs : List QualRow) (fill : String → List CarPick)
    (t : String) : Prop :=
  (((starting_grid_warm teams qs fill).filter (fun g => g.team == t)).length
      ≤ cars_per_team teams.length) ∧
  (((starting_grid_warm teams qs fill).filter (fun g => g.team == t)).map (fun g => g.carNumber)
      = ((warm_selection qs fill t).take (cars_per_team teams.length)).map (fun c => c.num)) ∧
  (∀ i, cars_per_team teams.length ≤ i →
    ((warm_selection qs fill t).map (fun c => c.num)).Nodup →
    ∀ hi : i < (warm_selection qs fill t).length,
      ((warm_selection qs fill t).get ⟨i, hi⟩).num ∉
        ((starting_grid_warm teams qs fill).filter (fun g => g.team == t)).map
          (fun g => g.carNumber))

/-! ## Helper lemmas about the sorting machinery -/

theorem insertLe_perm {α : Type} (le : α → α → Bool) (x : α) :
    ∀ l : List α, (insertLe le x l).Perm (x :: l)
  | [] => by simp [insertLe]
  | y :: ys => by
    simp only [insertLe]
    split
    · exact List.Perm.refl _
    · exact ((insertLe_perm le x ys).cons y).trans (List.Perm.swap x y ys)

theorem isort_perm {α : Type} (le : α → α → Bool) :
    ∀ l : List α, (isort le l).Perm l
  | [] => List.Perm.refl _
  | x :: xs => (insertLe_perm le x (isort le xs)).trans ((isort_perm le xs).cons x)

theorem mem_insertLe {α : Type} {le : α → α → Bool} {x z : α} {l : List α} :
    z ∈ insertLe le x l ↔ z = x ∨ z ∈ l := by
  rw [(insertLe_perm le x l).mem_iff, List.mem_cons]

theorem pairwise_insertLe {α : Type} {le : α → α → Bool}
    (total : ∀ a b, (le a b || le b a) = true)
    (trans : ∀ a b c, le a b = true → le b c = true → le a c = true) (x : α) :
    ∀ l : List α, l.Pairwise (fun a b => le a b = true) →
      (insertLe le x l).Pairwise (fun a b => le a b = true)
  | [], _ => by simp [insertLe]
  | y :: ys, h => by
    rw [List.pairwise_cons] at h
    simp only [insertLe]
    by_cases hxy : le x y = true
    · rw [if_pos hxy, List.pairwise_cons]
      refine ⟨?_, List.pairwise_cons.mpr h⟩
      intro z hz
      rcases List.mem_cons.mp hz with hz | hz
      · exact hz ▸ hxy
      · exact trans x y z hxy (h.1 z hz)
    · rw [if_neg hxy, List.pairwise_cons]
      refine ⟨?_, pairwise_insertLe total trans x ys h.2⟩
      intro z hz
      rcases mem_insertLe.mp hz with hz | hz
      · subst hz
        have htot := total z y
        simp only [Bool.or_eq_true] at htot
        exact htot.resolve_left hxy
      · exact h.1 z hz

theorem pairwise_isort {α : Type} {le : α → α → Bool}
    (total : ∀ a b, (le a b || le b a) = true)
    (trans : ∀ a b c, le a b = true → le b c = true → le a c = true) :
    ∀ l : List α, (isort le l).Pairwise (fun a b => le a b = true)
  | [] => List.Pairwise.nil
  | x :: xs => pairwise_insertLe total trans x (isort le xs) (pairwise_isort total trans xs)

theorem lexGe_total : ∀ as bs : List Int, (lexGe as bs || lexGe bs as) = true
  | [], [] => by simp [lexGe]
  | [], _ :: _ => by simp [lexGe]
  | _ :: _, [] => by simp [lexGe]
  | a :: as, b :: bs => by
    simp only [lexGe]
    by_cases hab : a = b
    · subst hab
      simp only [if_pos rfl]
      exact lexGe_total as bs
    · have hba : ¬ b = a := fun hh => hab hh.symm
      simp only [if_neg hab, if_neg hba, Bool.or_eq_true, decide_eq_true_eq]
      omega

theorem lexGe_trans : ∀ as bs cs : List Int, as.length = bs.length → bs.length = cs.length →
    lexGe as bs = true → lexGe bs cs = true → lexGe as cs = true
  | [], [], [], _, _, _, _ => rfl
  | [], [], _ :: _, _, h2, _, _ => by simp at h2
  | [], _ :: _, _, h1, _, _, _ => by simp at h1
  | _ :: _, [], _, h1, _, _, _ => by simp at h1
  | _ :: _, _ :: _, [], _, h2, _, _ => by simp at h2
  | a :: as, b :: bs, c :: cs, h1, h2, p, q => by
    simp only [lexGe] at p q ⊢
    by_cases hab : a = b
    · subst hab
      by_cases hac : a = c
      · subst hac
        simp only [if_pos rfl] at p q ⊢
        exact lexGe_trans as bs cs (by simpa using h1) (by simpa using h2) p q
      · simp only [if_pos rfl] at p
        simp only [if_neg hac] at q ⊢
        exact q
    · by_cases hbc : b = c
      · subst hbc
        simp only [if_neg hab] at p ⊢
        exact p
      · simp only [if_neg hab, decide_eq_true_eq] at p
        simp only [if_neg hbc, decide_eq_true_eq] at q
        have hac : ¬ a = c := by omega
        simp only [if_neg hac, decide_eq_true_eq]
        omega

theorem lexGe_head : ∀ (a b : Int) (as bs : List Int),
    lexGe (a :: as) (b :: bs) = true → b ≤ a := by
  intro a b as bs h
  simp only [lexGe] at h
  by_cases hab : a = b
  · omega
  · simp only [if_neg hab, decide_eq_true_eq] at h
    omega

theorem playoffLe_total : ∀ a b : PlayoffAgg, (playoffLe a b || playoffLe b a) = true :=
  fun _ _ => lexGe_total _ _

theorem playoffLe_trans : ∀ a b c : PlayoffAgg,
    playoffLe a b = true → playoffLe b c = true → playoffLe a c = true :=
  fun _ _ _ => lexGe_trans _ _ _ (by simp) (by simp)

theorem playoffLe_points {a b : PlayoffAgg} (h : playoffLe a b = true) :
    b.playoffPoints ≤ a.playoffPoints :=
  lexGe_head _ _ _ _ h

/-! ## Claim theorems -/

/-- C1 (code_bug): the spec says `build_race_results` returns one scored row
per input entry with each finisher's `points` equal to the configured points
plus `turnsLed`; the code instead raises `TypeError` on every input that
contains a finisher, because `build_race_results` passes
`_build_finisher_result` eight positional arguments while its definition
accepts seven.  A one-finisher input hits the error, while an all-DNQ input
(which the claim excludes) still succeeds, isolating the broken branch. -/
theorem c1_finisher_typeerror :
    build_race_results [⟨1, .pos 1, 10⟩] c1Grid zeroPoints =
      .error "TypeError: _build_finisher_result() takes 7 positional arguments but 8 were given" ∧
    build_race_results [⟨1, .dnq, 10⟩] c1Grid zeroPoints =
      .ok [build_dnq_result 1 ⟨1, "Alice", "Apex", 1⟩ zeroTable zeroTable zeroTable] :=
  ⟨rfl, rfl⟩

/-- C2 (code_bug): the spec's table gives 6 cars per team for a 2-team race,
but in `starting_grid` the assignment `cars_per_team = 6` under
`if num_teams == 2` is dead — the following `if/elif/else` chain always
reassigns, and its `else` branch sets 3.  With two teams, each 6-car team
therefore contributes only `min(3, 6) = 3` grid entries, for a 6-row grid. -/
theorem c2_two_team_cars_per_team :
    cars_per_team 2 = 3 ∧ cars_per_team 3 = 5 ∧ cars_per_team 4 = 4 ∧ cars_per_team 5 = 3 ∧
    ((starting_grid_cold ["A", "B"] c2Sample).filter (fun g => g.team == "A")).length = 3 ∧
    ((starting_grid_cold ["A", "B"] c2Sample).filter (fun g => g.team == "B")).length = 3 ∧
    (starting_grid_cold ["A", "B"] c2Sample).length = 6 :=
  ⟨rfl, rfl, rfl, rfl, rfl, rfl, rfl⟩

/-- C3 counterexample: in `c3Race` every row's `turnsLed` is 0, so the claim
says no team receives the turns-led bonus; yet `team_race_results` grants the
`+1` unconditionally via `idxmax`, and team "A" (first in the sorted groupby
order, not even first in source order) ends with `totalPoints = 6` although
its members' points sum to 5. -/
theorem c3_bonus_despite_zero_turns :
    (∀ r ∈ c3Race, r.turnsLed = 0) ∧
    team_race_records c3Race = .ok [⟨"A", 6, 0, 1⟩, ⟨"B", 10, 0, 1⟩] ∧
    ((c3Race.filter (fun r => r.team == "A")).map (fun r => r.points)).sum = 5 :=
  ⟨by decide, rfl, rfl⟩

/-- C5 (code_bug): the claim (and the spec's table) say `wins` counts rows
with `finish == 1`; the three standings functions compute
`np.sum(s == "1")`, a string comparison, while the scoring pipeline stores a
finisher's `finish` as an `int`.  On a season holding one win (integer 1) and
one DNQ, all three views report `wins = 0` even though the same row is
counted by `starts`/`top5s`/`top10s` (whose `pd.to_numeric` handles integers
and coerces `"DNQ"` to a non-matching NaN without raising). -/
theorem c5_wins_never_count_integer_finishes :
    ((driver_standings c5Season).map (fun r => (r.starts, r.wins, r.top5s, r.top10s))
      = [(1, 0, 1, 1)]) ∧
    ((owner_standings c5Season (fun _ => none)).map (fun r => (r.wins, r.top5s, r.top10s))
      = [(0, 1, 1)]) ∧
    ((playoff_standings c5Season).map (fun r => (r.wins, r.top5s, r.top10s))
      = [(0, 1, 1)]) :=
  ⟨rfl, rfl, rfl⟩

/-- C8 counterexample: the claim says every core ranking sort is stable, but
the per-race team ranking (`team_race_results`, line 159) calls
`sort_values` without `kind="mergesort"`, so it runs pandas' default
`quicksort`, whose stability is not guaranteed. -/
theorem c8_not_all_sorts_stable :
    (core_ranking_sort_kinds.all PandasSortKind.stableGuaranteed) = false :=
  rfl

/-- C8 (corrected): the driver, owner, and playoff standings sorts request
`kind="mergesort"` (stable); the team ranking sort of `team_race_results`
runs the default `quicksort` and is not guaranteed stable. -/
theorem c8_standings_sorts_stable_team_sort_not :
    driver_standings_sort_kind.stableGuaranteed = true ∧
    owner_standings_sort_kind.stableGuaranteed = true ∧
    playoff_standings_sort_kind.stableGuaranteed = true ∧
    team_race_results_sort_kind.stableGuaranteed = false :=
  ⟨rfl, rfl, rfl, rfl⟩

/-! ## Clip-weight evaluation lemmas -/

theorem clipWeight_one : clipWeight 1 = 1 := by
  rw [clipWeight, min_self]
  exact max_eq_right (by norm_num)

theorem clipWeight_zero : clipWeight 0 = 1 / 1000000 := by
  rw [clipWeight, min_eq_left (by norm_num : (0 : ℚ) ≤ 1)]
  exact max_eq_left (by norm_num)

theorem clipWeight_third : clipWeight (1 / 3) = 1 / 3 := by
  rw [clipWeight, min_eq_left (by norm_num : (1 : ℚ) / 3 ≤ 1)]
  exact max_eq_right (by norm_num)

/-- C4 counterexample: for a team with aggregated qualifying scores
`[100, 0, 0]` the claim assigns each zero-score car the equal-split weight
`1/3`; in the code the equal split only fires when the team total is 0, so
here the zero-score cars get `0/100 = 0`, clamped up to `1e-6 ≠ 1/3`. -/
theorem c4_zero_score_weight_is_eps :
    team_weights [100, 0, 0] = [1, 1 / 1000000, 1 / 1000000] ∧
    ¬ ((1 : ℚ) / 1000000 = 1 / 3) := by
  constructor
  · simp only [team_weights, List.sum_cons, List.sum_nil, List.length_cons,
      List.length_nil, List.map]
    norm_num [weight_of]
    rw [clipWeight_one, clipWeight_zero]
    exact ⟨rfl, rfl⟩
  · norm_num

/-- C4 (corrected): a zero-score car on a team whose score total is nonzero
receives the clamped minimum weight `1e-6`, not `1/3`; the equal split
`1/teamSize` applies only when the team total is zero (for scores
`[0, 0, 0]` every car does get `1/3`). -/
theorem c4_eps_only_unless_team_total_zero (tp : ℚ) (h : tp ≠ 0) :
    weight_of tp 3 0 = 1 / 1000000 ∧
    team_weights [0, 0, 0] = [1 / 3, 1 / 3, 1 / 3] := by
  constructor
  · rw [weight_of, if_neg h, zero_div, clipWeight_zero]
  · simp only [team_weights, List.sum_cons, List.sum_nil, List.length_cons,
      List.length_nil, List.map]
    norm_num [weight_of]
    rw [clipWeight_third]

/-- Witness for the corrected C4 theorem at the concrete team total 100. -/
theorem c4_witness :
    ((100 : ℚ) ≠ 0) ∧
    (weight_of 100 3 0 = 1 / 1000000 ∧
      team_weights [0, 0, 0] = [1 / 3, 1 / 3, 1 / 3]) :=
  ⟨by norm_num, c4_eps_only_unless_team_total_zero 100 (by norm_num)⟩

/-! ## Claim C9: DNQ entries and team stats -/

theorem statsFold_filter (grid_idx : Int → Option GridRow) :
    ∀ (results : List RawResult) (acc : List (String × TeamStat)),
      statsFold grid_idx acc (results.filter (fun r => r.finish != RaceFinish.dnq)) =
        statsFold grid_idx acc results
  | [], _ => rfl
  | r :: rest, acc => by
    rcases hf : r.finish with f | _
    · have hp : (r.finish != RaceFinish.dnq) = true := by rw [hf]; rfl
      rw [List.filter_cons, if_pos hp]
      simp only [statsFold, hf]
      cases grid_idx r.carNumber with
      | none => rfl
      | some row => exact statsFold_filter grid_idx rest _
    · have hp : (r.finish != RaceFinish.dnq) = false := by rw [hf]; rfl
      rw [List.filter_cons, if_neg (by simp [hp])]
      conv_rhs => rw [statsFold]
      rw [hf]
      exact statsFold_filter grid_idx rest acc

/-- C9 (confirmed): a DNQ entry's reported `turnsLed` is discarded.  Its
scored row (`_build_dnq_result`) records `turnsLed = 0`, and
`_calculate_team_stats` skips DNQ entries entirely, so removing them changes
neither any team's summed turns led nor the most-led-team designation: the
stats of the DNQ-filtered input equal the stats of the full input. -/
theorem c9_dnq_turns_led_discarded :
    (∀ (car : Int) (row : GridRow) (pts po qual : PointsTable),
      (build_dnq_result car row pts po qual).turnsLed = 0) ∧
    (∀ (results : List RawResult) (grid_idx : Int → Option GridRow),
      calculate_team_stats (results.filter (fun r => r.finish != RaceFinish.dnq)) grid_idx =
        calculate_team_stats results grid_idx) := by
  refine ⟨fun _ _ _ _ _ => rfl, fun results grid_idx => ?_⟩
  simp only [calculate_team_stats, statsFold_filter]

/-! ## Claim C7: dense starting positions -/

theorem grid_rows_positions (cpt : Nat) (teams : List String)
    (sel : String → List CarPick) :
    (grid_rows cpt teams sel).map (fun g => g.startingPosition) =
      (List.range' 1 (grid_rows cpt teams sel).length).map Int.ofNat := by
  apply List.ext_getElem
  · simp [grid_rows]
  · intro i h1 h2
    simp [grid_rows, List.getElem_zip, List.getElem_range']

/-- C7 (confirmed): in both cold-start and warm-start modes the
`startingPosition` column of the grid is exactly the sequence `1, ..., N`
(`N` the number of grid rows) — in particular the set `{1..N}` with no
repeats and no gaps — for every input, non-empty or not. -/
theorem c7_positions_dense :
    ∀ (teams : List String) (sample : String → List CarPick)
      (qs : List QualRow) (fill : String → List CarPick),
      ((starting_grid_cold teams sample).map (fun g => g.startingPosition)
        = (List.range' 1 (starting_grid_cold teams sample).length).map Int.ofNat) ∧
      ((starting_grid_warm teams qs fill).map (fun g => g.startingPosition)
        = (List.range' 1 (starting_grid_warm teams qs fill).length).map Int.ofNat) :=
  fun teams sample qs fill =>
    ⟨grid_rows_positions (cars_per_team teams.length) teams sample,
     grid_rows_positions (cars_per_team teams.length) teams (warm_selection qs fill)⟩

/-! ## Claim C3: the per-race turns-led bonus -/

theorem dedupFirst_nodup {α : Type} [DecidableEq α] : ∀ l : List α, (dedupFirst l).Nodup
  | [] => List.nodup_nil
  | x :: xs => by
    rw [dedupFirst, List.nodup_cons]
    refine ⟨?_, (dedupFirst_nodup xs).filter _⟩
    intro hmem
    simpa using List.of_mem_filter hmem

theorem argmaxTurnsLed_isSome :
    ∀ (x : TeamRec) (xs : List TeamRec), ∃ m, argmaxTurnsLed (x :: xs) = some m
  | _, [] => ⟨_, rfl⟩
  | x, y :: ys => by
    obtain ⟨b, hb⟩ := argmaxTurnsLed_isSome y ys
    simp only [argmaxTurnsLed, hb]
    by_cases hc : b.turnsLed > x.turnsLed
    · exact ⟨b, by rw [if_pos hc]⟩
    · exact ⟨x, by rw [if_neg hc]⟩

theorem argmaxTurnsLed_spec :
    ∀ (l : List TeamRec) (m : TeamRec), argmaxTurnsLed l = some m →
      (∀ r ∈ l, r.turnsLed ≤ m.turnsLed) ∧
      ∃ i, ∃ hi : i < l.length, l.get ⟨i, hi⟩ = m ∧
        ∀ j (hj : j < l.length), j < i → (l.get ⟨j, hj⟩).turnsLed < m.turnsLed
  | [], m, h => by simp [argmaxTurnsLed] at h
  | [r], m, h => by
    simp only [argmaxTurnsLed, Option.some.injEq] at h
    subst h
    refine ⟨?_, 0, by simp, rfl, ?_⟩
    · intro x hx
      rcases List.mem_singleton.mp hx with rfl
      exact le_refl _
    · intro j hj hj0
      omega
  | r :: s :: rest, m, h => by
    obtain ⟨b, hb⟩ := argmaxTurnsLed_isSome s rest
    obtain ⟨hmax, i, hi, hget, hfirst⟩ := argmaxTurnsLed_spec (s :: rest) b hb
    simp only [argmaxTurnsLed, hb] at h
    by_cases hc : b.turnsLed > r.turnsLed
    · rw [if_pos hc, Option.some.injEq] at h
      subst h
      constructor
      · intro x hx
        rcases List.mem_cons.mp hx with rfl | hx
        · omega
        · exact hmax x hx
      · refine ⟨i + 1, by simpa using Nat.succ_lt_succ hi, ?_, ?_⟩
        · simpa using hget
        · intro j hj hji
          cases j with
          | zero => simpa using hc
          | succ j2 =>
            have hj2 : j2 < (s :: rest).length := by simpa using hj
            have := hfirst j2 hj2 (by omega)
            simpa using this
    · rw [if_neg hc, Option.some.injEq] at h
      subst h
      constructor
      · intro x hx
        rcases List.mem_cons.mp hx with rfl | hx
        · exact le_refl _
        · exact le_trans (hmax x hx) (by omega)
      · refine ⟨0, by simp, rfl, ?_⟩
        intro j hj hji
        omega

theorem team_base_records_teams (race : List ScoredRow) :
    (team_base_records race).map (fun r => r.team) =
      isort strLe (dedupFirst (race.map (fun r => r.team))) := by
  simp only [team_base_records, List.map_map]
  have hcomp : ((fun r : TeamRec => r.team) ∘ fun t =>
      ({ team := t,
         totalPoints := ((race.filter (fun r => r.team == t)).map (fun r => r.points)).sum,
         turnsLed := ((race.filter (fun r => r.team == t)).map (fun r => r.turnsLed)).sum,
         drivers := (race.filter (fun r => r.team == t)).length } : TeamRec)) = id := rfl
  rw [hcomp, List.map_id]

theorem team_base_records_team_nodup (race : List ScoredRow) :
    ((team_base_records race).map (fun r => r.team)).Nodup := by
  rw [team_base_records_teams]
  exact ((isort_perm strLe _).nodup_iff).mpr (dedupFirst_nodup _)

theorem team_base_records_ne_nil {race : List ScoredRow} (h : race ≠ []) :
    0 < (team_base_records race).length := by
  cases race with
  | nil => exact absurd rfl h
  | cons r0 rest =>
    simp only [team_base_records, List.length_map]
    rw [(isort_perm strLe _).length_eq]
    simp [dedupFirst]

/-- C3 (corrected): in `team_race_results` exactly one team always receives
the `+1` turns-led bonus, added exactly once to its `totalPoints` — namely
the first team, in the sorted groupby team order, whose summed `turnsLed` is
maximal.  This holds whether or not any team led a turn; in particular, when
every team's summed `turnsLed` is 0, the first team in sorted order still
receives the bonus (the claim's no-bonus clause fails, see the
counterexample). -/
theorem c3_bonus_always_exactly_one (race : List ScoredRow) (h : race ≠ []) :
    C3Concl race := by
  have hlen := team_base_records_ne_nil h
  obtain ⟨m, hm⟩ : ∃ m, argmaxTurnsLed (team_base_records race) = some m := by
    cases hbase : team_base_records race with
    | nil => rw [hbase] at hlen; simp at hlen
    | cons b0 bs =>
      obtain ⟨m, hm⟩ := argmaxTurnsLed_isSome b0 bs
      exact ⟨m, hm⟩
  obtain ⟨hmax, i, hi, hget, hfirst⟩ := argmaxTurnsLed_spec _ m hm
  have hmem : m ∈ team_base_records race := hget ▸ List.get_mem _ i hi
  refine ⟨m, hm, ?_, ?_, hmax, i, hi, hget, hfirst⟩
  · have hcount : List.count m.team ((team_base_records race).map (fun r => r.team)) = 1 :=
      List.count_eq_one_of_mem (team_base_records_team_nodup race)
        (List.mem_map_of_mem _ hmem)
    rw [List.count, List.countP_map] at hcount
    exact hcount
  · simp only [team_race_records, hm]

/-- Witness for the corrected C3 theorem at the concrete all-zero race. -/
theorem c3_witness : c3Race ≠ [] ∧ C3Concl c3Race :=
  ⟨by decide, c3_bonus_always_exactly_one c3Race (by decide)⟩

/-! ## Claim C6: playoff cutline margins -/

theorem take24_zip_getq {α β : Type} (l : List α) (f : α × Nat → β)
    (i : Nat) (hil : i < l.length) (hi24 : i < 24) :
    (((l.zip (List.range' 1 l.length)).map f).take 24)[i]? = some (f (l[i], 1 + i)) := by
  have h1 : i < (((l.zip (List.range' 1 l.length)).map f).take 24).length := by
    simp only [List.length_take, List.length_map, List.length_zip, List.length_range',
      min_self, lt_min_iff]
    exact ⟨hi24, hil⟩
  rw [List.getElem?_eq_getElem h1, List.getElem_take, List.getElem_map, List.getElem_zip,
    List.getElem_range']
  simp

/-- C6 (confirmed): `playoff_standings` leaves every margin blank when the
aggregation has fewer than 13 rows; otherwise each row in positions 1-12
shows `playoffPoints − row13.playoffPoints` (non-negative, rendered with an
explicit leading `+`), each later row shows `playoffPoints −
row12.playoffPoints` (non-positive), non-negative margins always carry an
explicit sign, and at most the top 24 rows are returned. -/
theorem c6_playoff_margins (rows : List ScoredRow) (i : Nat)
    (h : i < (playoff_standings rows).length) :
    C6Concl rows i := by
  have pw := pairwise_isort playoffLe_total playoffLe_trans (playoff_agg_rows rows)
  set agg := isort playoffLe (playoff_agg_rows rows) with hagg
  have ppMono : ∀ j k (hj : j < agg.length) (hk : k < agg.length), j < k →
      agg[k].playoffPoints ≤ agg[j].playoffPoints := by
    intro j k hj hk hjk
    exact playoffLe_points (List.pairwise_iff_getElem.mp pw j k hj hk hjk)
  have hlenps : (playoff_standings rows).length = min 24 agg.length := by
    simp only [playoff_standings]
    split
    · simp
    · simp
  rw [hlenps, lt_min_iff] at h
  obtain ⟨hi24, hi_agg⟩ := h
  unfold C6Concl
  rw [← hagg]
  refine ⟨?_, ?_, ?_, ?_, ?_⟩
  · rw [hlenps]
    exact min_le_left _ _
  · intro d hd
    rw [fmtSigned, if_pos hd]
  · by_cases hlt : agg.length < 13
    · simp only [playoff_standings]
      rw [if_pos hlt, take24_zip_getq agg _ i hi_agg hi24, Option.getD_some]
      simp [Nat.add_comm]
    · simp only [playoff_standings]
      rw [if_neg hlt, take24_zip_getq agg _ i hi_agg hi24, Option.getD_some]
      simp [Nat.add_comm]
  · intro hlt
    simp only [playoff_standings]
    rw [if_pos hlt, take24_zip_getq agg _ i hi_agg hi24, Option.getD_some]
  · intro hge
    have hlt : ¬ agg.length < 13 := by omega
    simp only [playoff_standings]
    rw [if_neg hlt, take24_zip_getq agg _ i hi_agg hi24, Option.getD_some]
    constructor
    · intro hi11
      have h12 : 12 < agg.length := by omega
      have h112 : agg[12]? = some agg[12] := List.getElem?_eq_getElem h12
      have hmono := ppMono i 12 hi_agg h12 (by omega)
      have hcond : 1 + i ≤ 12 := by omega
      rw [h112]
      simp only [Option.getD_some, if_pos hcond]
      refine ⟨by omega, ?_⟩
      rw [fmtSigned,
        if_pos (by omega : (0 : Int) ≤ agg[i].playoffPoints - agg[12].playoffPoints)]
    · intro hi12
      have h11 : 11 < agg.length := by omega
      have h111 : agg[11]? = some agg[11] := List.getElem?_eq_getElem h11
      have hmono := ppMono 11 i h11 hi_agg (by omega)
      have hcond : ¬ (1 + i ≤ 12) := by omega
      rw [h111]
      simp only [Option.getD_some, if_neg hcond]
      exact ⟨by omega, trivial⟩

/-- Witness for the playoff-margin theorem at a one-row season (the
blank-margin branch) and row index 0. -/
theorem c6_witness : 0 < (playoff_standings c6Rows).length ∧ C6Concl c6Rows 0 :=
  ⟨by decide, c6_playoff_margins c6Rows 0 (by decide)⟩

/-! ## Claim C10: warm-start per-team grid slots -/

theorem filterMap_rank_not_mem {teams : List String} {t : String}
    (sel : String → List CarPick) (r : Nat) (h : t ∉ teams) :
    (teams.filterMap (fun t2 => ((sel t2)[r]?).map (fun c => (t2, c)))).filter
      (fun p => p.1 == t) = [] := by
  induction teams with
  | nil => rfl
  | cons hd tl ih =>
    have hhd : ¬ (hd == t) = true := by
      simp only [beq_iff_eq]
      intro he
      exact h (he ▸ List.mem_cons_self hd tl)
    have htl : t ∉ tl := fun hm => h (List.mem_cons_of_mem hd hm)
    rcases hsel : (sel hd)[r]? with _ | c
    · simp only [List.filterMap_cons, hsel, Option.map_none']
      exact ih htl
    · simp only [List.filterMap_cons, hsel, Option.map_some']
      rw [List.filter_cons, if_neg hhd]
      exact ih htl

theorem filterMap_rank_mem {teams : List String} {t : String}
    (sel : String → List CarPick) (r : Nat) (hnd : teams.Nodup) (hmem : t ∈ teams) :
    (teams.filterMap (fun t2 => ((sel t2)[r]?).map (fun c => (t2, c)))).filter
      (fun p => p.1 == t) = (((sel t)[r]?).map (fun c => (t, c))).toList := by
  induction teams with
  | nil => cases hmem
  | cons hd tl ih =>
    rw [List.nodup_cons] at hnd
    rcases List.mem_cons.mp hmem with rfl | hmemtl
    · rcases hsel : (sel t)[r]? with _ | c
      · simp only [List.filterMap_cons, hsel, Option.map_none', Option.toList_none]
        exact filterMap_rank_not_mem sel r hnd.1
      · simp only [List.filterMap_cons, hsel, Option.map_some', Option.toList_some]
        rw [List.filter_cons, if_pos (by simp)]
        rw [filterMap_rank_not_mem sel r hnd.1]
    · have hhd : ¬ (hd == t) = true := by
        simp only [beq_iff_eq]
        intro he
        exact hnd.1 (he ▸ hmemtl)
      rcases hsel : (sel hd)[r]? with _ | c
      · simp only [List.filterMap_cons, hsel, Option.map_none']
        exact ih hnd.2 hmemtl
      · simp only [List.filterMap_cons, hsel, Option.map_some']
        rw [List.filter_cons, if_neg hhd]
        exact ih hnd.2 hmemtl

theorem gridPicks_succ (cpt : Nat) (teams : List String) (sel : String → List CarPick) :
    gridPicks (cpt + 1) teams sel = gridPicks cpt teams sel ++
      teams.filterMap (fun t2 => ((sel t2)[cpt]?).map (fun c => (t2, c))) := by
  simp [gridPicks, List.range_succ]

theorem gridPicks_filter (sel : String → List CarPick) (t : String) :
    ∀ (cpt : Nat) (teams : List String), teams.Nodup → t ∈ teams →
      ((gridPicks cpt teams sel).filter (fun p => p.1 == t)).map Prod.snd
        = (sel t).take cpt
  | 0, teams, _, _ => by simp [gridPicks]
  | cpt + 1, teams, hnd, hmem => by
    rw [gridPicks_succ, List.filter_append, List.map_append,
      gridPicks_filter sel t cpt teams hnd hmem,
      filterMap_rank_mem sel cpt hnd hmem, List.take_succ]
    congr 1
    rcases h : (sel t)[cpt]? with _ | c <;> simp

theorem zip_filter_fst {α β γ : Type} (p : α → Bool) (g : α → γ) :
    ∀ (as : List α) (bs : List β), as.length = bs.length →
      ((as.zip bs).filter (fun x => p x.1)).map (fun x => g x.1) = (as.filter p).map g
  | [], [], _ => rfl
  | [], _ :: _, h => by simp at h
  | _ :: _, [], h => by simp at h
  | a :: as, b :: bs, h => by
    simp only [List.zip_cons_cons, List.filter_cons]
    by_cases hp : p a = true
    · rw [if_pos hp, if_pos hp]
      simp only [List.map_cons]
      exact congrArg _ (zip_filter_fst p g as bs (by simpa using h))
    · rw [if_neg hp, if_neg hp]
      exact zip_filter_fst p g as bs (by simpa using h)

theorem grid_rows_filter_team (cpt : Nat) (teams : List String)
    (sel : String → List CarPick) (t : String) (hnd : teams.Nodup) (hmem : t ∈ teams) :
    ((grid_rows cpt teams sel).filter (fun g => g.team == t)).map (fun g => g.carNumber)
      = ((sel t).take cpt).map (fun c => c.num) := by
  have key := zip_filter_fst (fun q : String × CarPick => q.1 == t)
    (fun q : String × CarPick => q.2.num)
    (gridPicks cpt teams sel)
    (List.range' 1 (gridPicks cpt teams sel).length) (by simp)
  have key3 : ((gridPicks cpt teams sel).filter (fun q => q.1 == t)).map
        (fun q : String × CarPick => q.2.num)
      = (((gridPicks cpt teams sel).filter (fun q => q.1 == t)).map Prod.snd).map
        (fun c => c.num) := by
    rw [List.map_map]
    rfl
  have key2 : (((gridPicks cpt teams sel).filter (fun q => q.1 == t)).map Prod.snd).map
        (fun c => c.num) = ((sel t).take cpt).map (fun c => c.num) := by
    rw [gridPicks_filter sel t cpt teams hnd hmem]
  simp only [grid_rows]
  rw [List.filter_map, List.map_map]
  exact key.trans (key3.trans key2)

/-- C10 (confirmed): in warm-start mode each team occupies at most
`cars_per_team` grid rows; reading the grid top to bottom, a team's cars are
exactly the first `cars_per_team` entries of its selection list — its
qualifiers in `teamPosition` order followed by the random fills — and, when
the selection has no duplicate car numbers, every selection entry from index
`cars_per_team` on (in particular a qualifier ranked beyond `cars_per_team`)
is silently absent from the grid. -/
theorem c10_warm_truncation (teams : List String) (qs : List QualRow)
    (fill : String → List CarPick) (t : String)
    (hnd : teams.Nodup) (hmem : t ∈ teams) : C10Concl teams qs fill t := by
  have hb : ((starting_grid_warm teams qs fill).filter (fun g => g.team == t)).map
        (fun g => g.carNumber)
      = ((warm_selection qs fill t).take (cars_per_team teams.length)).map
        (fun c => c.num) :=
    grid_rows_filter_team (cars_per_team teams.length) teams
      (warm_selection qs fill) t hnd hmem
  refine ⟨?_, hb, ?_⟩
  · have hlen : ((starting_grid_warm teams qs fill).filter (fun g => g.team == t)).length
        = (((warm_selection qs fill t).take (cars_per_team teams.length)).map
            (fun c => c.num)).length := by
      rw [← List.length_map _ (fun g : GridRow => g.carNumber), hb]
    rw [hlen, List.length_map, List.length_take]
    exact min_le_left _ _
  · intro i hcpt hnodup hi hmem2
    rw [hb] at hmem2
    obtain ⟨j, hj, hjeq⟩ := List.mem_iff_getElem.mp hmem2
    rw [List.getElem_map, List.getElem_take] at hjeq
    have hjlen : j < ((warm_selection qs fill t).take (cars_per_team teams.length)).length := by
      simpa using hj
    rw [List.length_take, lt_min_iff] at hjlen
    have hji : j ≠ i := by omega
    apply hji
    have hmapj : j < ((warm_selection qs fill t).map (fun c => c.num)).length := by
      rw [List.length_map]
      exact hjlen.2
    have hmapi : i < ((warm_selection qs fill t).map (fun c => c.num)).length := by
      rw [List.length_map]
      exact hi
    have : ((warm_selection qs fill t).map (fun c => c.num))[j]
        = ((warm_selection qs fill t).map (fun c => c.num))[i] := by
      rw [List.getElem_map, List.getElem_map]
      rw [List.get_eq_getElem] at hjeq
      exact hjeq
    exact (hnodup.getElem_inj_iff).mp this

/-- Witness for the warm-start theorem at a concrete two-team race with one
qualifier for team "A" and empty random fills. -/
theorem c10_witness :
    (["A", "B"] : List String).Nodup ∧ "A" ∈ (["A", "B"] : List String) ∧
      C10Concl ["A", "B"] c10Quals c10Fill "A" :=
  ⟨by decide, by decide, c10_warm_truncation ["A", "B"] c10Quals c10Fill "A"
    (by decide) (by decide)⟩

end TAL
